import Mathlib

/-!
Verification of williamjacksn/irc-kernel (src/irc_kernel/irc_kernel.py).

The embedding models:
* `NewlineDelimitedProtocol.data_received` (the line framer) over byte
  sequences represented as `List Nat`;
* `IRCClient.line_received` with its subscriber fan-out and autoresponses;
* `KernelControl` (the control session) as a state transformer over an
  explicit state, emitting a trace of observable events (transport writes,
  transport closes, registry and persistence updates, outbound IRC sends).

Python exceptions (AttributeError / IndexError / KeyError raised by
unguarded accesses) are modelled explicitly, since several claims are about
exactly those unguarded accesses.
-/

namespace IrcKernel

/-- A byte of the input stream (values 0..255; the model never needs the
upper bound, only equality with the newline byte 10). -/
abbrev Byte := Nat

/-- The bytes stripped by Python `bytes.strip()` with no argument:
space, tab, linefeed, carriage return, vertical tab, form feed. -/
def isWsByte (b : Byte) : Bool :=
  b == 32 || b == 9 || b == 10 || b == 13 || b == 11 || b == 12

/-- Leading-whitespace removal (the leading half of `bytes.strip()`). -/
def trimLeft (l : List Byte) : List Byte := l.dropWhile isWsByte

/-- Trailing-whitespace removal (the trailing half of `bytes.strip()`). -/
def trimRight (l : List Byte) : List Byte := (l.reverse.dropWhile isWsByte).reverse

/-- Python `line.strip()` on bytes: removes whitespace from both ends. -/
def pyStrip (l : List Byte) : List Byte := trimRight (trimLeft l)

/-- Helper for `splitNL`: prepend byte `b` to the first segment. -/
def consHead (b : Byte) : List (List Byte) → List (List Byte)
  | [] => [[b]]
  | h :: t => (b :: h) :: t

/-- Python `buf.split(b'\n')`: the list of segments between newline bytes.
Always nonempty; the last segment is the part after the final newline. -/
def splitNL : List Byte → List (List Byte)
  | [] => [[]]
  | b :: rest => if b = 10 then [] :: splitNL rest else consHead b (splitNL rest)

namespace NewlineDelimitedProtocol

/-- `NewlineDelimitedProtocol.data_received`: append the chunk to the
buffer, split on newline, keep the final segment as the new buffer, and
deliver each complete segment stripped.  Returns (delivered lines, new
buffer). -/
def data_received (buf data : List Byte) : List (List Byte) × List Byte :=
  let segs := splitNL (buf ++ data)
  (segs.dropLast.map pyStrip, segs.getLastD [])

/-- Feed a list of chunks one at a time, starting from buffer `buf`
(`_buf` starts as `b''`); collect the delivered lines in order. -/
def feedAll (buf : List Byte) : List (List Byte) → List (List Byte) × List Byte
  | [] => ([], buf)
  | c :: cs =>
      let p := data_received buf c
      let q := feedAll p.2 cs
      (p.1 ++ q.1, q.2)

end NewlineDelimitedProtocol

/-- Merging helper for the `splitNL` append law: glue `l` onto the first
segment of the split of the suffix. -/
def mergeHead (l : List Byte) : List (List Byte) → List (List Byte)
  | [] => [l]
  | h :: t => (l ++ h) :: t

/-! ## JSON values

`json.loads` produces values of this type (numbers are modelled as
integers; the configuration and the control protocol use no fractional
numbers and no claim involves them). -/

inductive J where
  | null
  | str (s : String)
  | num (n : Int)
  | bool (b : Bool)
  | arr (xs : List J)
  | obj (kvs : List (String × J))

/-- Python `==` between a JSON value and a string literal
(`msg.get('jsonrpc') != '2.0'`, method comparisons, the secret check):
true exactly when the value is that string. -/
def jStrEq : J → String → Bool
  | .str t, s => t == s
  | _, _ => false

/-- Python `x is None` for a JSON value. -/
def J.isNull : J → Bool
  | .null => true
  | _ => false

/-- Python `==` between two hashable (scalar) JSON values, as used by
dict key lookup.  Python treats `True == 1` and `False == 0` as equal.
Lists and dicts are unhashable in Python (a `TypeError` before any lookup);
no claim involves such a key, and the model compares them as unequal. -/
def scalarEq : J → J → Bool
  | .null, .null => true
  | .str s, .str t => s == t
  | .num m, .num n => m == n
  | .bool p, .bool q => p == q
  | .bool p, .num n => (if p then (1 : Int) else 0) == n
  | .num n, .bool p => n == (if p then (1 : Int) else 0)
  | _, _ => false

/-- A JSON object body (`dict`): association list with string keys. -/
abbrev JObj := List (String × J)

/-- Python `d.get(k)`: the value at `k`, or `None` when absent. -/
def objGet (o : JObj) (k : String) : J :=
  match o.find? (fun p => p.1 == k) with
  | some p => p.2
  | none => J.null

/-- Python `d.get(k, default)`: distinguishes an absent key from a key
present with value `None`. -/
def objGetD (o : JObj) (k : String) (d : J) : J :=
  match o.find? (fun p => p.1 == k) with
  | some p => p.2
  | none => d

/-- Python `k in d`. -/
def objHas (o : JObj) (k : String) : Bool :=
  o.any (fun p => p.1 == k)

/-- `d.get(k)` on a JSON value known to the caller to be an object;
`J.null` on anything else. -/
def objGetJ (j : J) (k : String) : J :=
  match j with
  | .obj o => objGet o k
  | _ => J.null

/-- Lookup in a dict keyed by (scalar) JSON values: `d.get(k)`. -/
def jLookup (l : List (J × α)) (k : J) : Option α :=
  match l.find? (fun p => scalarEq p.1 k) with
  | some p => some p.2
  | none => none

/-- Python dict assignment `d[k] = v`: replace the value of an existing
equal key (the stored key object is kept), else append a new entry. -/
def jSet (l : List (J × α)) (k : J) (v : α) : List (J × α) :=
  if l.any (fun p => scalarEq p.1 k) then
    l.map (fun p => (p.1, if scalarEq p.1 k then v else p.2))
  else l ++ [(k, v)]

/-- Python `del d[k]` (for a key known to be present) and the removal part
of `d.pop`: drop the entries with an equal key. -/
def jDel (l : List (J × α)) (k : J) : List (J × α) :=
  l.filter (fun p => !scalarEq p.1 k)

/-- Python `repr` of a JSON value, as used in the error message
`'... unknown network {!r}'.format(name)`.  String escaping and the
layout of nested containers are simplified; no claim inspects the text. -/
def pyRepr : J → String
  | .null => "None"
  | .str s => "'" ++ s ++ "'"
  | .num n => toString n
  | .bool b => if b then "True" else "False"
  | .arr _ => "[...]"
  | .obj _ => "\x7b...\x7d"

/-! ## Text helpers (Python `str` operations on `List Char`) -/

/-- The characters `str.split()` (no argument) splits on, and `str.strip()`
removes (ASCII subset; the inputs of interest are ASCII). -/
def isWsChar (c : Char) : Bool :=
  c == ' ' || c == '\t' || c == '\n' || c == '\r' ||
    c == Char.ofNat 11 || c == Char.ofNat 12

/-- Accumulator worker for `pySplit`. -/
def pySplitGo (cur : List Char) : List Char → List (List Char)
  | [] => if cur.isEmpty then [] else [cur.reverse]
  | c :: rest =>
      if isWsChar c then
        if cur.isEmpty then pySplitGo [] rest
        else cur.reverse :: pySplitGo [] rest
      else pySplitGo (c :: cur) rest

/-- Python `s.split()` with no argument: split on runs of whitespace,
no empty tokens. -/
def pySplit (l : List Char) : List (List Char) := pySplitGo [] l

/-- Python `s.lower()` (ASCII letters; no claim involves non-ASCII case). -/
def pyLower (l : List Char) : List Char := l.map Char.toLower

/-- Python `s.startswith(pre)`: `startsWithL s pre`. -/
def startsWithL : List Char → List Char → Bool
  | _, [] => true
  | [], _ :: _ => false
  | a :: as, b :: bs => a == b && startsWithL as bs

/-- Helper for `splitComma`: prepend a char to the first token. -/
def consHeadC (c : Char) : List (List Char) → List (List Char)
  | [] => [[c]]
  | h :: t => (c :: h) :: t

/-- Python `s.split(',')`: split on every comma, keeping empty tokens. -/
def splitComma : List Char → List (List Char)
  | [] => [[]]
  | c :: rest => if c == ',' then [] :: splitComma rest else consHeadC c (splitComma rest)

/-- The value of `list(s)` after `s = set(a); s.update(set(b))`, as a
deduplicated list.  Python's set iteration order is unspecified; the model
fixes one order, and every claim about channels refers only to the
underlying set (`List.toFinset`). -/
def pySetUnion (a b : List String) : List String := (a ++ b).dedup

/-- The value of `list(s)` after `s = set(a); s.difference_update(set(b))`. -/
def pySetDiff (a b : List String) : List String := (a.filter (fun x => !b.contains x)).dedup

/-! ## KernelControl: state, events, operations -/

/-- One entry of the persisted `networks` mapping (the dict built by
`network_add` / loaded from the config file).  Scalar fields keep whatever
JSON value the request supplied; `channels` is the persisted channel list. -/
structure Net where
  host : J
  nick : J
  port : J
  realname : J
  user : J
  channels : List String

/-- The slice of an `IRCClient` the control-session claims observe: the
lines passed to its `out` (in order) and whether this session's handler is
subscribed to it. -/
structure Client where
  sent : List String
  subs : Bool

/-- Python exceptions raised by the unguarded accesses in the source. -/
inductive PyErr where
  | attrError
  | indexError
  | keyError
  deriving DecidableEq

/-- Observable events of one control-session operation, in program order:
`ctlWrite v` is `self._t.write(json.dumps(v) + '\n')`, `ctlClose` is
`self._t.close()` (via `control_disconnect` or `client.disconnect`
counterpart `clientClose`), `persistNetworks` is the flush performed by
`self.config['networks'] = ...`, `registryAdd`/`registryDel` are the
mutations of `self.clients`, `connect` is the scheduled
`loop.create_connection`, `clientSend` is `client.out(message)`. -/
inductive KEvent where
  | ctlWrite (v : J)
  | ctlClose
  | persistNetworks (nets : List (J × Net))
  | registryAdd (name : J)
  | registryDel (name : J)
  | connect (name : J)
  | clientClose (name : J)
  | clientSend (name : J) (m : String)

/-- The outcome of a handler: a returned value (`resp none` is Python
`None`) or an uncaught exception. -/
inductive Res where
  | resp (r : Option J)
  | err (e : PyErr)

/-- The state a control session operates on: the configured control
secret, the in-memory `config['networks']` value, the value most recently
flushed to disk, the client registry `self.clients`, and the session's
`self.subscribed` flag. -/
structure KCState where
  secret : String
  networks : List (J × Net)
  persisted : List (J × Net)
  clients : List (J × Client)
  subscribed : Bool

abbrev KRes := Res × KCState × List KEvent

/-- `{'result': 'success', 'id': msg.get('id'), 'jsonrpc': '2.0'}` -/
def successEnv (msg : JObj) : J :=
  J.obj [("result", J.str "success"), ("id", objGet msg "id"), ("jsonrpc", J.str "2.0")]

/-- `{'jsonrpc': '2.0', 'id': msg.get('id'), 'error': {'code': c, 'message': m}}` -/
def errorEnv (msg : JObj) (code : Int) (m : String) : J :=
  J.obj [("jsonrpc", J.str "2.0"), ("id", objGet msg "id"),
    ("error", J.obj [("code", J.num code), ("message", J.str m)])]

namespace KernelControl

/-- `KernelControl.network_add`. -/
def network_add (st : KCState) (msg : JObj) : KRes :=
  match objGet msg "params" with
  | J.obj params =>
    let host := objGet params "host"
    if host.isNull then (.resp none, st, [.ctlClose])
    else
      let name := objGet params "name"
      let nick := objGet params "nick"
      let port := objGetD params "port" (J.num 6667)
      let realname := objGet params "realname"
      let user := objGet params "user"
      let net : Net := { host := host, nick := nick, port := port,
                         realname := realname, user := user, channels := [] }
      let nets1 := jSet st.networks name net
      let st1 : KCState :=
        { st with networks := nets1, persisted := nets1,
                  clients := jSet st.clients name ⟨[], st.subscribed⟩ }
      (.resp (some (successEnv msg)), st1,
        [.persistNetworks nets1, .connect name, .registryAdd name])
  | _ => (.err .attrError, st, [])

/-- `KernelControl.network_delete`. -/
def network_delete (st : KCState) (msg : JObj) : KRes :=
  match objGet msg "params" with
  | J.obj params =>
    let name := objGet params "name"
    match jLookup st.clients name with
    | none =>
      (.resp (some (errorEnv msg (-32002)
          ("network.delete: unknown network " ++ pyRepr name))), st, [])
    | some _ =>
      let st1 := { st with clients := jDel st.clients name }
      if (jLookup st.networks name).isSome then
        let nets1 := jDel st.networks name
        (.resp (some (successEnv msg)),
          { st1 with networks := nets1, persisted := nets1 },
          [.clientClose name, .registryDel name, .persistNetworks nets1])
      else
        (.err .keyError, st1, [.clientClose name, .registryDel name])
  | _ => (.err .attrError, st, [])

/-- The JSON value of one persisted network entry, in the key order
`network_add` builds it. -/
def netToJ (n : Net) : J :=
  J.obj [("host", n.host), ("nick", n.nick), ("port", n.port),
    ("realname", n.realname), ("user", n.user),
    ("channels", J.arr (n.channels.map J.str))]

/-- The JSON value of the whole `networks` mapping (string keys as loaded
or supplied; a non-string key is rendered through `pyRepr`). -/
def networksToJ (nets : List (J × Net)) : J :=
  J.obj (nets.map (fun p =>
    (match p.1 with | J.str s => s | k => pyRepr k, netToJ p.2)))

/-- `KernelControl.network_get`. -/
def network_get (st : KCState) (msg : JObj) : KRes :=
  (.resp (some (J.obj [("result", networksToJ st.networks),
    ("id", objGet msg "id"), ("jsonrpc", J.str "2.0")])), st, [])

/-- `client.out(m)`: append `m` to the named client's sent lines unless
`m` is empty (falsy). -/
def clientOut (st : KCState) (name : J) (m : String) : KCState × List KEvent :=
  if m == "" then (st, [])
  else
    ({ st with clients := st.clients.map (fun p =>
        if scalarEq p.1 name then (p.1, { p.2 with sent := p.2.sent ++ [m] }) else p) },
      [.clientSend name m])

/-- `KernelControl.network_send`. -/
def network_send (st : KCState) (msg : JObj) : KRes :=
  match objGet msg "params" with
  | J.obj params =>
    let name := objGet params "name"
    match jLookup st.clients name with
    | none =>
      (.resp (some (errorEnv msg (-32001)
          ("network.send: unknown network " ++ pyRepr name))), st, [])
    | some _ =>
      match objGet params "message" with
      | J.str m =>
        let ml := m.toList
        if startsWithL (pyLower ml) "join ".toList then
          match pySplit ml with
          | _ :: t1 :: _ =>
            match jLookup st.networks name with
            | none => (.err .keyError, st, [])
            | some net =>
              let chanList := (splitComma t1).map (fun l => String.mk l)
              let net1 := { net with channels := pySetUnion net.channels chanList }
              let nets1 := jSet st.networks name net1
              let st1 := { st with networks := nets1, persisted := nets1 }
              let p := clientOut st1 name m
              (.resp (some (successEnv msg)), p.1, .persistNetworks nets1 :: p.2)
          | _ => (.err .indexError, st, [])
        else if startsWithL (pyLower ml) "nick ".toList then
          match pySplit ml with
          | _ :: t1 :: _ =>
            match jLookup st.networks name with
            | none => (.err .keyError, st, [])
            | some net =>
              let net1 := { net with nick := J.str (String.mk t1) }
              let nets1 := jSet st.networks name net1
              let st1 := { st with networks := nets1, persisted := nets1 }
              let p := clientOut st1 name m
              (.resp (some (successEnv msg)), p.1, .persistNetworks nets1 :: p.2)
          | _ => (.err .indexError, st, [])
        else if startsWithL (pyLower ml) "part ".toList then
          match pySplit ml with
          | _ :: t1 :: _ =>
            match jLookup st.networks name with
            | none => (.err .keyError, st, [])
            | some net =>
              let chanList := (splitComma t1).map (fun l => String.mk l)
              let net1 := { net with channels := pySetDiff net.channels chanList }
              let nets1 := jSet st.networks name net1
              let st1 := { st with networks := nets1, persisted := nets1 }
              let p := clientOut st1 name m
              (.resp (some (successEnv msg)), p.1, .persistNetworks nets1 :: p.2)
          | _ => (.err .indexError, st, [])
        else
          let p := clientOut st name m
          (.resp (some (successEnv msg)), p.1, p.2)
      | _ => (.err .attrError, st, [])
  | _ => (.err .attrError, st, [])

/-- `KernelControl.stream_start`. -/
def stream_start (st : KCState) (msg : JObj) : KRes :=
  (.resp (some (successEnv msg)),
    { st with subscribed := true,
              clients := st.clients.map (fun p => (p.1, { p.2 with subs := true })) },
    [])

/-- `KernelControl.stream_stop`. -/
def stream_stop (st : KCState) (msg : JObj) : KRes :=
  (.resp (some (successEnv msg)),
    { st with subscribed := false,
              clients := st.clients.map (fun p => (p.1, { p.2 with subs := false })) },
    [])

/-- `KernelControl.dispatch_method`.  The `control.disconnect` branch does
not return, so it falls through the remaining cases to the trailing
`control_disconnect`, closing twice. -/
def dispatch_method (st : KCState) (msg : JObj) : KRes :=
  if !jStrEq (objGet msg "jsonrpc") "2.0" then (.resp none, st, [.ctlClose])
  else if !objHas msg "method" then (.resp none, st, [.ctlClose])
  else
    match objGet msg "params" with
    | J.obj params =>
      if jStrEq (objGet params "secret") st.secret then
        let method := objGet msg "method"
        if jStrEq method "control.disconnect" then (.resp none, st, [.ctlClose, .ctlClose])
        else if jStrEq method "network.add" then network_add st msg
        else if jStrEq method "network.delete" then network_delete st msg
        else if jStrEq method "network.get" then network_get st msg
        else if jStrEq method "network.send" then network_send st msg
        else if jStrEq method "stream.start" then stream_start st msg
        else if jStrEq method "stream.stop" then stream_stop st msg
        else (.resp none, st, [.ctlClose])
      else (.resp none, st, [.ctlClose])
    | _ => (.resp none, st, [.ctlClose])

/-- `dispatch_method(m)` on an arbitrary JSON value, as the batch loop
does: a non-object has no `.get`, so it raises `AttributeError`. -/
def dispatchJ (st : KCState) (j : J) : KRes :=
  match j with
  | J.obj kvs => dispatch_method st kvs
  | _ => (.err .attrError, st, [])

/-- The list comprehension `[self.dispatch_method(m) for m in msg]`:
sequential dispatch threading the state; an exception aborts the rest. -/
def dispatchBatch (st : KCState) :
    List J → (Except PyErr (List (Option J))) × KCState × List KEvent
  | [] => (.ok [], st, [])
  | j :: rest =>
    match dispatchJ st j with
    | (.resp r, st1, e1) =>
      match dispatchBatch st1 rest with
      | (.ok rs, st2, e2) => (.ok (r :: rs), st2, e1 ++ e2)
      | (.error e, st2, e2) => (.error e, st2, e1 ++ e2)
    | (.err e, st1, e1) => (.error e, st1, e1)

/-- `KernelControl.line_received`.  The input is the parse of one framed
line: `none` for a line that fails to decode as UTF-8 or to parse as JSON,
`some j` for the parsed value.  `self.out(x)` serializes `x` (Python `None`
becomes JSON `null`) and writes it — also after a disconnect. -/
def line_received (st : KCState) (input : Option J) : KRes :=
  match input with
  | none => (.resp none, st, [.ctlClose])
  | some (J.obj kvs) =>
    match dispatch_method st kvs with
    | (.resp r, st1, e1) => (.resp none, st1, e1 ++ [.ctlWrite (r.getD J.null)])
    | (.err e, st1, e1) => (.err e, st1, e1)
  | some (J.arr xs) =>
    match dispatchBatch st xs with
    | (.ok rs, st1, e1) =>
      (.resp none, st1, e1 ++ [.ctlWrite (J.arr (rs.map (fun r => r.getD J.null)))])
    | (.error e, st1, e1) => (.err e, st1, e1)
  | some _ => (.resp none, st, [.ctlClose])

/-- `KernelControl.__init__`: one registry client per configured network
(the config as loaded from disk; nothing is flushed). -/
def startupState (secret : String) (cfg : List (J × Net)) : KCState :=
  { secret := secret, networks := cfg, persisted := cfg,
    clients := cfg.map (fun p => (p.1, ⟨[], false⟩)), subscribed := false }

end KernelControl

/-! ## IRCClient -/

/-- The state of one `IRCClient` that `line_received` reads: its network
name, the channel list of its configuration snapshot (`self.net`), and its
subscriber set (handlers, identified by opaque ids; Python iterates the
set in an unspecified order, so the model fixes one order — every claim
involving subscribers is order-insensitive or universally quantified). -/
structure IRCClientSt where
  name : String
  channels : List String
  subscribers : List Nat

/-- Observable events of `IRCClient.line_received`: `deliver h n m` is the
call `handler(self, line)` (handler id, `client.name`, decoded line);
`send m` is `self.out(m)` with the CRLF appended on the wire. -/
inductive CEvent where
  | deliver (h : Nat) (network : String) (message : String)
  | send (m : String)
  deriving DecidableEq

/-- Is the event an outbound send (autoresponse write)? -/
def isSendC : CEvent → Bool
  | .send _ => true
  | _ => false

namespace IRCClient

/-- `IRCClient.line_received` on the decoded line: fan the line out to
every subscriber, then run the autoresponse logic.  `tokens[1]` in the
PING branch is unguarded (`IndexError` when the line has one token).
Returns the events that occurred, and the exception if one was raised. -/
def line_received (c : IRCClientSt) (line : String) : List CEvent × Option PyErr :=
  let fanout := c.subscribers.map (fun h => CEvent.deliver h c.name line)
  let tokens := pySplit line.toList
  if tokens.length > 0 && tokens.headD [] == "PING".toList then
    match tokens with
    | _ :: t1 :: _ => (fanout ++ [CEvent.send ("PONG " ++ String.mk t1)], none)
    | _ => (fanout, some .indexError)
  else if tokens.length > 1 then
    match tokens with
    | _ :: t1 :: _ =>
      if t1 == "376".toList then
        (fanout ++ c.channels.map (fun ch => CEvent.send ("JOIN " ++ ch)), none)
      else (fanout, none)
    | _ => (fanout, none)
  else (fanout, none)

end IRCClient

/-- `KernelControl.irc_handler`: the push a subscribed control session
writes when a client delivers a line. -/
def irc_handler (network message : String) : J :=
  J.obj [("jsonrpc", J.str "2.0"), ("method", J.str "handler"),
    ("params", J.obj [("network", J.str network), ("message", J.str message)])]

/-- The protocol violations listed by claim C2, for a framed control line:
undecodable/invalid JSON (`none`), a JSON value that is neither object nor
array, an object without `jsonrpc: "2.0"`, without `method`, with `params`
not an object, or with `params.secret` different from the control secret. -/
def isViolationInput (st : KCState) (input : Option J) : Prop :=
  match input with
  | none => True
  | some (J.obj kvs) =>
      jStrEq (objGet kvs "jsonrpc") "2.0" = false
      ∨ objHas kvs "method" = false
      ∨ (∀ pl : JObj, objGet kvs "params" ≠ J.obj pl)
      ∨ ∃ pl : JObj, objGet kvs "params" = J.obj pl
          ∧ jStrEq (objGet pl "secret") st.secret = false
  | some (J.arr _) => False
  | some _ => True

/-- Event classifiers for ordering statements. -/
def isPersistE : KEvent → Bool
  | .persistNetworks _ => true
  | _ => false

def isClientSendE : KEvent → Bool
  | .clientSend _ _ => true
  | _ => false

def isRegAddE : KEvent → Bool
  | .registryAdd _ => true
  | _ => false

def isRegDelE : KEvent → Bool
  | .registryDel _ => true
  | _ => false

/-- `allBefore p q evs`: no `p`-event occurs after a `q`-event, i.e. every
`p`-event in the trace precedes every `q`-event. -/
def allBefore (p q : KEvent → Bool) : List KEvent → Bool
  | [] => true
  | e :: rest => ((!q e) || rest.all (fun x => !p x)) && allBefore p q rest

/-- Two registries (possibly of different value types) have the same keys:
lookup succeeds for exactly the same (scalar) JSON keys. -/
def keysEquiv {α β : Type} (a : List (J × α)) (b : List (J × β)) : Prop :=
  ∀ k : J, (jLookup a k).isSome = (jLookup b k).isSome

/-- The in-memory/persisted consistency invariant of claim C3: the
in-memory `networks` value equals the persisted one, and the client
registry has exactly the same keys as the persisted `networks` mapping. -/
def RegistryConfigInv (st : KCState) : Prop :=
  st.networks = st.persisted ∧ keysEquiv st.clients st.persisted

/-- States reachable by startup followed by any sequence of `network.add`
and `network.delete` operations (on arbitrary request objects). -/
inductive Reach : KCState → Prop
  | startup (secret : String) (cfg : List (J × Net)) :
      Reach (KernelControl.startupState secret cfg)
  | add (st : KCState) (msg : JObj) : Reach st →
      Reach (KernelControl.network_add st msg).2.1
  | del (st : KCState) (msg : JObj) : Reach st →
      Reach (KernelControl.network_delete st msg).2.1

theorem takeWhile_all (p : Byte → Bool) (l : List Byte) :
    (l.takeWhile p).all p := by
  rw [List.all_eq_true]
  intro x hx
  exact List.mem_takeWhile_imp hx

/-- `pyStrip` removes a (whitespace-only) suffix and a (whitespace-only)
leading part: every list decomposes as whitespace, its strip, whitespace. -/
theorem pyStrip_decomposition (seg : List Byte) :
    ∃ pre suf, seg = pre ++ pyStrip seg ++ suf
      ∧ pre.all isWsByte ∧ suf.all isWsByte := by
  refine ⟨seg.takeWhile isWsByte,
    ((trimLeft seg).reverse.takeWhile isWsByte).reverse, ?_, ?_, ?_⟩
  · have h1 : seg = seg.takeWhile isWsByte ++ trimLeft seg :=
      (List.takeWhile_append_dropWhile isWsByte seg).symm
    have h2 : (trimLeft seg).reverse
        = (trimLeft seg).reverse.takeWhile isWsByte ++ (trimLeft seg).reverse.dropWhile isWsByte :=
      (List.takeWhile_append_dropWhile isWsByte (trimLeft seg).reverse).symm
    have h3 : trimLeft seg
        = pyStrip seg ++ ((trimLeft seg).reverse.takeWhile isWsByte).reverse := by
      have h2' := congrArg List.reverse h2
      rw [List.reverse_reverse, List.reverse_append] at h2'
      exact h2'
    calc seg = seg.takeWhile isWsByte ++ trimLeft seg := h1
      _ = seg.takeWhile isWsByte ++ (pyStrip seg ++ ((trimLeft seg).reverse.takeWhile isWsByte).reverse) := by rw [← h3]
      _ = seg.takeWhile isWsByte ++ pyStrip seg ++ ((trimLeft seg).reverse.takeWhile isWsByte).reverse := by
          rw [List.append_assoc]
  · exact takeWhile_all _ _
  · rw [List.all_eq_true]
    intro x hx
    exact List.mem_takeWhile_imp (List.mem_reverse.mp hx)

namespace NewlineDelimitedProtocol

/-- Claim C8 counterexample: the framer does NOT preserve the leading bytes
of a segment.  Feeding `b' a\n'` delivers the line `b'a'`: the leading
space (byte 32) is stripped, contradicting the claim that only trailing
whitespace is removed. -/
theorem C8_counterexample :
    (data_received [] [32, 97, 10]).1 = [[97]]
      ∧ (data_received [] [32, 97, 10]).1 ≠ [[32, 97]] := by
  constructor
  · rfl
  · decide

/-- Claim C8 (amended): every complete segment is delivered with BOTH
leading and trailing whitespace stripped (`bytes.strip()`), the stripped
line being the segment minus a whitespace-only leading part and a
whitespace-only trailing part; segments are delivered in arrival order
(the delivered list is the in-order map of `pyStrip` over the complete
segments). -/
theorem C8_strip_both_ends_in_order (buf data : List Byte) :
    (data_received buf data).1 = ((splitNL (buf ++ data)).dropLast).map pyStrip
      ∧ ∀ seg : List Byte, ∃ pre suf, seg = pre ++ pyStrip seg ++ suf
            ∧ pre.all isWsByte ∧ suf.all isWsByte := by
  exact ⟨rfl, fun seg => pyStrip_decomposition seg⟩

end NewlineDelimitedProtocol

theorem consHead_ne_nil (b : Byte) (xs : List (List Byte)) : consHead b xs ≠ [] := by
  cases xs <;> simp [consHead]

theorem splitNL_ne_nil (l : List Byte) : splitNL l ≠ [] := by
  induction l with
  | nil => simp [splitNL]
  | cons b rest ih =>
    by_cases h : b = 10
    · simp [splitNL, h]
    · simpa [splitNL, h] using consHead_ne_nil b (splitNL rest)

theorem mem_splitNL_no_nl (l : List Byte) :
    ∀ seg ∈ splitNL l, (10 : Byte) ∉ seg := by
  induction l with
  | nil =>
    intro seg hseg
    simp [splitNL] at hseg
    simp [hseg]
  | cons b rest ih =>
    intro seg hseg
    by_cases h : b = 10
    · simp [splitNL, h] at hseg
      rcases hseg with h1 | h1
      · simp [h1]
      · exact ih seg h1
    · simp only [splitNL, if_neg h] at hseg
      rcases hr : splitNL rest with _ | ⟨s0, ss⟩
      · exact absurd hr (splitNL_ne_nil rest)
      · rw [hr] at hseg
        simp [consHead] at hseg
        rcases hseg with h1 | h1
        · subst h1
          intro hmem
          rcases List.mem_cons.mp hmem with h2 | h2
          · exact h h2.symm
          · exact ih s0 (by simp [hr]) h2
        · exact ih seg (by simp [hr, h1])

theorem splitNL_of_no_nl (l : List Byte) (h : (10 : Byte) ∉ l) : splitNL l = [l] := by
  induction l with
  | nil => simp [splitNL]
  | cons b rest ih =>
    have hb : b ≠ 10 := by
      intro hb; exact h (by simp [hb])
    have hrest : (10 : Byte) ∉ rest := fun hm => h (List.mem_cons_of_mem _ hm)
    simp [splitNL, hb, ih hrest, consHead]

theorem splitNL_append (x y : List Byte) :
    splitNL (x ++ y) =
      (splitNL x).dropLast ++ mergeHead ((splitNL x).getLastD []) (splitNL y) := by
  induction x with
  | nil =>
    rcases hy : splitNL y with _ | ⟨h, t⟩
    · exact absurd hy (splitNL_ne_nil y)
    · simp [splitNL, mergeHead, hy]
  | cons b rest ih =>
    rcases hr : splitNL rest with _ | ⟨s0, ss⟩
    · exact absurd hr (splitNL_ne_nil rest)
    · by_cases hb : b = 10
      · show splitNL (b :: (rest ++ y)) = _
        simp only [splitNL, if_pos hb, ih, hr]
        simp only [List.dropLast_cons₂, List.getLastD_cons, List.cons_append]
      · show splitNL (b :: (rest ++ y)) = _
        simp only [splitNL, if_neg hb, ih, hr]
        rcases ss with _ | ⟨s1, ss1⟩
        · rcases hy : splitNL y with _ | ⟨hy0, hyt⟩
          · exact absurd hy (splitNL_ne_nil y)
          · simp [consHead, mergeHead, hy]
        · simp [consHead, mergeHead, List.getLastD_cons]

theorem getLastD_mem_of_ne_nil (l : List (List Byte)) (h : l ≠ []) :
    l.getLastD [] ∈ l := by
  rcases l with _ | ⟨a, t⟩
  · exact absurd rfl h
  · rw [List.getLastD_cons]
    exact List.getLastD_mem_cons t a

namespace NewlineDelimitedProtocol

theorem data_received_append (buf a b : List Byte) :
    data_received buf (a ++ b) =
      ((data_received buf a).1 ++ (data_received (data_received buf a).2 b).1,
       (data_received (data_received buf a).2 b).2) := by
  have hassoc : buf ++ (a ++ b) = (buf ++ a) ++ b := (List.append_assoc buf a b).symm
  set A := splitNL (buf ++ a) with hA
  have hAne : A ≠ [] := splitNL_ne_nil _
  set s1 := A.getLastD [] with hs1
  have hs1mem : s1 ∈ A := getLastD_mem_of_ne_nil A hAne
  have hs1nl : (10 : Byte) ∉ s1 := mem_splitNL_no_nl (buf ++ a) s1 hs1mem
  have hsplit1 : splitNL (buf ++ (a ++ b)) = A.dropLast ++ mergeHead s1 (splitNL b) := by
    rw [hassoc, splitNL_append]
  have hsplit2 : splitNL (s1 ++ b) = mergeHead s1 (splitNL b) := by
    rw [splitNL_append, splitNL_of_no_nl s1 hs1nl]
    simp [mergeHead]
  rcases hB : splitNL b with _ | ⟨b0, bt⟩
  · exact absurd hB (splitNL_ne_nil b)
  · have hMne : mergeHead s1 (splitNL b) ≠ [] := by simp [hB, mergeHead]
    have hdrop : (A.dropLast ++ mergeHead s1 (splitNL b)).dropLast
        = A.dropLast ++ (mergeHead s1 (splitNL b)).dropLast :=
      List.dropLast_append_of_ne_nil _ hMne
    have hlast : (A.dropLast ++ mergeHead s1 (splitNL b)).getLastD []
        = (mergeHead s1 (splitNL b)).getLastD [] := by
      rw [List.getLastD_eq_getLast?, List.getLastD_eq_getLast?, List.getLast?_append,
        List.getLast?_eq_getLast _ hMne]
      rfl
    simp only [data_received, hsplit1, hsplit2, hdrop, hlast, List.map_append]

theorem feedAll_cons_flatten (cs : List (List Byte)) :
    ∀ buf c, feedAll buf (c :: cs) = data_received buf (c ++ cs.flatten) := by
  induction cs with
  | nil =>
    intro buf c
    simp [feedAll]
  | cons d ds ih =>
    intro buf c
    have h1 : feedAll buf (c :: d :: ds) =
        ((data_received buf c).1 ++ (feedAll (data_received buf c).2 (d :: ds)).1,
         (feedAll (data_received buf c).2 (d :: ds)).2) := rfl
    rw [h1, ih (data_received buf c).2 d]
    have h2 := data_received_append buf c (d ++ ds.flatten)
    have h3 : c ++ (d :: ds).flatten = c ++ (d ++ ds.flatten) := by simp
    rw [h3, h2]

/-- Claim C1: for every byte sequence and every partition of it into chunks,
feeding the chunks one at a time to `data_received` (starting from the empty
buffer) delivers exactly the same lines, in the same order, as feeding the
whole sequence as a single chunk (and leaves the same buffer). -/
theorem C1_chunk_independence (chunks : List (List Byte)) :
    feedAll [] chunks = data_received [] chunks.flatten := by
  rcases chunks with _ | ⟨c, cs⟩
  · simp [feedAll, data_received, splitNL]
  · simpa using feedAll_cons_flatten cs [] c

end NewlineDelimitedProtocol
/-! ## Claims about IRCClient.line_received -/

/-- Claim C9: on a line whose only whitespace-delimited token is `PING`
(such as the bare line `PING`), `IRCClient.line_received` passes the
guard `len(tokens) > 0 and tokens[0] == 'PING'` and then indexes
`tokens[1]` out of bounds: the PING branch is not total, raising
`IndexError` after the fan-out (for every client state). -/
theorem C9_ping_without_argument_index_error (c : IRCClientSt) :
    IRCClient.line_received c "PING"
      = (c.subscribers.map (fun h => CEvent.deliver h c.name "PING"),
         some PyErr.indexError) := by
  rfl

/-- Claim C5 counterexample: the PONG reply echoes only the SECOND
whitespace-delimited token, not the full remainder of the line.  On the
line `PING a b` (a client with no subscribers) the code replies `PONG a`;
the claim's `PONG` + full remainder would be `PONG a b`, and no such
event occurs. -/
theorem C5_counterexample :
    IRCClient.line_received ⟨"n", [], []⟩ "PING a b"
        = ([CEvent.send "PONG a"], none)
      ∧ CEvent.send "PONG a b" ∉ (IRCClient.line_received ⟨"n", [], []⟩ "PING a b").1 := by
  constructor
  · rfl
  · decide

/-- Claim C5 (amended): for every line with at least two
whitespace-delimited tokens whose first token equals `PING`, the client
performs the fan-out and then emits exactly one outbound reply, `PONG `
followed by the SECOND token of the line (not the full remainder); in
particular `PING :server` yields exactly one outbound `PONG :server`. -/
theorem C5_pong_second_token (c : IRCClientSt) (line : String)
    (t1 : List Char) (ts : List (List Char))
    (htok : pySplit line.toList = "PING".toList :: t1 :: ts) :
    IRCClient.line_received c line
        = (c.subscribers.map (fun h => CEvent.deliver h c.name line)
            ++ [CEvent.send ("PONG " ++ String.mk t1)], none)
      ∧ (IRCClient.line_received c line).1.filter isSendC
          = [CEvent.send ("PONG " ++ String.mk t1)] := by
  have hmain : IRCClient.line_received c line
      = (c.subscribers.map (fun h => CEvent.deliver h c.name line)
          ++ [CEvent.send ("PONG " ++ String.mk t1)], none) := by
    unfold IRCClient.line_received
    rw [htok]
    simp
  refine ⟨hmain, ?_⟩
  rw [hmain]
  have hnil : ∀ subs : List Nat,
      List.filter isSendC (subs.map (fun h => CEvent.deliver h c.name line)) = [] := by
    intro subs
    induction subs with
    | nil => rfl
    | cons a t ih => simp [isSendC, ih]
  simp [List.filter_append, hnil, isSendC]

/-- Witness for `C5_pong_second_token`: the concrete instance from the
claim, `PING :server` on a client with one subscriber, yields the
handler delivery followed by exactly one `PONG :server`. -/
theorem C5_pong_second_token_witness :
    IRCClient.line_received ⟨"n", [], [7]⟩ "PING :server"
        = ([CEvent.deliver 7 "n" "PING :server", CEvent.send "PONG :server"], none)
      ∧ (IRCClient.line_received ⟨"n", [], [7]⟩ "PING :server").1.filter isSendC
          = [CEvent.send "PONG :server"] := by
  have h := C5_pong_second_token ⟨"n", [], [7]⟩ "PING :server" ":server".toList [] (by rfl)
  simpa using h

/-- Claim C7: every received line is delivered to all current subscribers
before any autoresponse side effect is evaluated — the event list of
`IRCClient.line_received` is the full fan-out (one delivery per
subscriber, carrying the client's name and the raw decoded line) followed
only by outbound sends; and the push a subscribed control session emits
for such a delivery (`irc_handler`) has `method = "handler"`,
`params.network` equal to the client's name, and `params.message` equal
to the raw line. -/
theorem C7_fanout_before_autoresponse (c : IRCClientSt) (line : String) :
    (∃ rest, (IRCClient.line_received c line).1
        = c.subscribers.map (fun h => CEvent.deliver h c.name line) ++ rest
      ∧ rest.all isSendC = true)
    ∧ (∀ n m : String,
        objGetJ (irc_handler n m) "method" = J.str "handler"
        ∧ objGetJ (objGetJ (irc_handler n m) "params") "network" = J.str n
        ∧ objGetJ (objGetJ (irc_handler n m) "params") "message" = J.str m) := by
  constructor
  · rcases htok : pySplit line.toList with _ | ⟨t0, rtl⟩
    · refine ⟨[], ?_, rfl⟩
      unfold IRCClient.line_received
      rw [htok]
      simp
    · rcases rtl with _ | ⟨t1, ts⟩
      · refine ⟨[], ?_, rfl⟩
        unfold IRCClient.line_received
        rw [htok]
        by_cases hping : t0 = ['P', 'I', 'N', 'G'] <;> simp [hping]
      · by_cases hping : t0 = ['P', 'I', 'N', 'G']
        · refine ⟨[CEvent.send ("PONG " ++ String.mk t1)], ?_, rfl⟩
          unfold IRCClient.line_received
          rw [htok]
          simp [hping]
        · by_cases h376 : t1 = ['3', '7', '6']
          · refine ⟨c.channels.map (fun ch => CEvent.send ("JOIN " ++ ch)), ?_, ?_⟩
            · unfold IRCClient.line_received
              rw [htok]
              simp [hping, h376]
            · simp [isSendC, List.all_eq_true]
          · refine ⟨[], ?_, rfl⟩
            unfold IRCClient.line_received
            rw [htok]
            simp [hping, h376]
  · intro n m
    exact ⟨rfl, rfl, rfl⟩

/-! ## Claims about KernelControl -/

/-- Claim C6: `network.delete` with an unregistered `params.name` returns
the -32002 error envelope and leaves the whole state — client registry,
in-memory networks and persisted networks — unchanged, with no events. -/
theorem C6_delete_unknown_network (st : KCState) (msg : JObj) (pl : JObj)
    (hp : objGet msg "params" = J.obj pl)
    (hname : jLookup st.clients (objGet pl "name") = none) :
    KernelControl.network_delete st msg
        = (.resp (some (errorEnv msg (-32002)
            ("network.delete: unknown network " ++ pyRepr (objGet pl "name")))), st, [])
      ∧ objGetJ (objGetJ (errorEnv msg (-32002)
            ("network.delete: unknown network " ++ pyRepr (objGet pl "name"))) "error") "code"
          = J.num (-32002) := by
  constructor
  · unfold KernelControl.network_delete
    rw [hp]
    simp only [hname]
  · rfl

/-- Witness for `C6_delete_unknown_network`: deleting the unknown network
`"x"` on a state with an empty registry. -/
theorem C6_delete_unknown_network_witness :
    KernelControl.network_delete ⟨"s", [], [], [], false⟩
        [("params", J.obj [("name", J.str "x")]), ("id", J.num 1)]
      = (.resp (some (errorEnv [("params", J.obj [("name", J.str "x")]), ("id", J.num 1)]
          (-32002) ("network.delete: unknown network 'x'"))),
         ⟨"s", [], [], [], false⟩, []) := by
  have h := C6_delete_unknown_network ⟨"s", [], [], [], false⟩
    [("params", J.obj [("name", J.str "x")]), ("id", J.num 1)]
    [("name", J.str "x")] rfl rfl
  exact h.1

/-- Claim C10: `network.send` on a registered network is not total.  If
`params.message` is absent (Python `None`), `message.lower()` raises
`AttributeError`; if the message is `join `/`nick `/`part ` followed only
by whitespace (a single whitespace-delimited token), `message.split()[1]`
raises `IndexError`.  In both cases no envelope is returned and no event
occurs. -/
theorem C10_send_unguarded_accesses (st : KCState) (msg : JObj) (pl : JObj)
    (hp : objGet msg "params" = J.obj pl)
    (hreg : (jLookup st.clients (objGet pl "name")).isSome = true) :
    (objGet pl "message" = J.null →
        KernelControl.network_send st msg = (.err .attrError, st, []))
    ∧ (∀ m : String, objGet pl "message" = J.str m →
        (startsWithL (pyLower m.toList) "join ".toList
          || startsWithL (pyLower m.toList) "nick ".toList
          || startsWithL (pyLower m.toList) "part ".toList) = true →
        (pySplit m.toList).length = 1 →
        KernelControl.network_send st msg = (.err .indexError, st, [])) := by
  obtain ⟨cl, hcl⟩ := Option.isSome_iff_exists.mp hreg
  constructor
  · intro hmsg
    unfold KernelControl.network_send
    simp only [hp, hcl, hmsg]
  · intro m hmsg hstarts hlen
    rcases hsp : pySplit m.toList with _ | ⟨t0, rtl⟩
    · rw [hsp] at hlen
      simp at hlen
    · rcases rtl with _ | ⟨t1, ts⟩
      · have hsp' : pySplit m.data = [t0] := hsp
        unfold KernelControl.network_send
        simp only [hp, hcl, hmsg]
        cases hj : startsWithL (pyLower m.toList) "join ".toList
        · cases hn : startsWithL (pyLower m.toList) "nick ".toList
          · cases hpt : startsWithL (pyLower m.toList) "part ".toList
            · rw [hj, hn, hpt] at hstarts
              simp at hstarts
            · simp [hj, hn, hpt, hsp']
          · simp [hj, hn, hsp']
        · simp [hj, hsp']
      · rw [hsp] at hlen
        simp at hlen

/-- Witness for `C10_send_unguarded_accesses`: on a state with network
`"n"` registered, a `network.send` without `message` raises
`AttributeError`, and one with message `"join "` raises `IndexError`. -/
theorem C10_send_unguarded_accesses_witness :
    KernelControl.network_send
        ⟨"s", [(J.str "n", ⟨J.str "h", J.null, J.num 6667, J.null, J.null, []⟩)],
         [(J.str "n", ⟨J.str "h", J.null, J.num 6667, J.null, J.null, []⟩)],
         [(J.str "n", ⟨[], false⟩)], false⟩
        [("params", J.obj [("name", J.str "n")])]
      = (.err .attrError,
         ⟨"s", [(J.str "n", ⟨J.str "h", J.null, J.num 6667, J.null, J.null, []⟩)],
          [(J.str "n", ⟨J.str "h", J.null, J.num 6667, J.null, J.null, []⟩)],
          [(J.str "n", ⟨[], false⟩)], false⟩, [])
    ∧ KernelControl.network_send
        ⟨"s", [(J.str "n", ⟨J.str "h", J.null, J.num 6667, J.null, J.null, []⟩)],
         [(J.str "n", ⟨J.str "h", J.null, J.num 6667, J.null, J.null, []⟩)],
         [(J.str "n", ⟨[], false⟩)], false⟩
        [("params", J.obj [("name", J.str "n"), ("message", J.str "join ")])]
      = (.err .indexError,
         ⟨"s", [(J.str "n", ⟨J.str "h", J.null, J.num 6667, J.null, J.null, []⟩)],
          [(J.str "n", ⟨J.str "h", J.null, J.num 6667, J.null, J.null, []⟩)],
          [(J.str "n", ⟨[], false⟩)], false⟩, []) := by
  constructor
  · exact (C10_send_unguarded_accesses
      ⟨"s", [(J.str "n", ⟨J.str "h", J.null, J.num 6667, J.null, J.null, []⟩)],
       [(J.str "n", ⟨J.str "h", J.null, J.num 6667, J.null, J.null, []⟩)],
       [(J.str "n", ⟨[], false⟩)], false⟩
      [("params", J.obj [("name", J.str "n")])]
      [("name", J.str "n")] rfl rfl).1 rfl
  · exact (C10_send_unguarded_accesses
      ⟨"s", [(J.str "n", ⟨J.str "h", J.null, J.num 6667, J.null, J.null, []⟩)],
       [(J.str "n", ⟨J.str "h", J.null, J.num 6667, J.null, J.null, []⟩)],
       [(J.str "n", ⟨[], false⟩)], false⟩
      [("params", J.obj [("name", J.str "n"), ("message", J.str "join ")])]
      [("name", J.str "n"), ("message", J.str "join ")] rfl rfl).2 "join " rfl rfl rfl

theorem dispatch_method_violation (st : KCState) (kvs : JObj)
    (h : jStrEq (objGet kvs "jsonrpc") "2.0" = false
      ∨ objHas kvs "method" = false
      ∨ (∀ pl : JObj, objGet kvs "params" ≠ J.obj pl)
      ∨ ∃ pl : JObj, objGet kvs "params" = J.obj pl
          ∧ jStrEq (objGet pl "secret") st.secret = false) :
    KernelControl.dispatch_method st kvs = (.resp none, st, [.ctlClose]) := by
  unfold KernelControl.dispatch_method
  cases hjr : jStrEq (objGet kvs "jsonrpc") "2.0"
  · simp [hjr]
  · cases hm : objHas kvs "method"
    · simp [hjr, hm]
    · cases hpar : objGet kvs "params" with
      | null => simp [hjr, hm, hpar]
      | str s => simp [hjr, hm, hpar]
      | num n => simp [hjr, hm, hpar]
      | bool b => simp [hjr, hm, hpar]
      | arr xs => simp [hjr, hm, hpar]
      | obj pl =>
        cases hsec : jStrEq (objGet pl "secret") st.secret
        · simp [hjr, hm, hpar, hsec]
        · exfalso
          rcases h with h | h | h | ⟨pl2, hpl2, hsec2⟩
          · rw [hjr] at h
            exact Bool.noConfusion h
          · rw [hm] at h
            exact Bool.noConfusion h
          · exact h pl hpar
          · rw [hpar] at hpl2
            cases J.obj.inj hpl2
            rw [hsec] at hsec2
            exact Bool.noConfusion hsec2

/-- Claim C2 counterexample: on the protocol-violating line `{}` (an
object with no `jsonrpc`), the session closes its transport but then
still calls `self.out(self.dispatch_method(msg))`, i.e. writes the JSON
serialization of `None` — `null` — to the (already closed) transport.
So "no response of any kind is written" is false at the level of the
write calls the code performs. -/
theorem C2_counterexample :
    (KernelControl.line_received ⟨"s", [], [], [], false⟩ (some (J.obj []))).2.2
        = [KEvent.ctlClose, KEvent.ctlWrite J.null]
      ∧ KEvent.ctlWrite J.null
          ∈ (KernelControl.line_received ⟨"s", [], [], [], false⟩ (some (J.obj []))).2.2 := by
  refine ⟨rfl, ?_⟩
  show KEvent.ctlWrite J.null ∈ [KEvent.ctlClose, KEvent.ctlWrite J.null]
  simp

/-- Claim C2 (amended): for every control line in the violation classes of
the claim, the session state is unchanged and the transport is closed
before anything is written; for non-object violations nothing is written
at all, and for object-shaped violations exactly one write of the JSON
`null` (the serialization of the absent response) is issued after the
close — no success or error envelope is ever written. -/
theorem C2_violation_closes_without_response (st : KCState) (input : Option J)
    (h : isViolationInput st input) :
    (KernelControl.line_received st input).2.1 = st
      ∧ ((KernelControl.line_received st input).2.2 = [KEvent.ctlClose]
        ∨ (KernelControl.line_received st input).2.2
            = [KEvent.ctlClose, KEvent.ctlWrite J.null]) := by
  cases input with
  | none => exact ⟨rfl, Or.inl rfl⟩
  | some j =>
    cases j with
    | null => exact ⟨rfl, Or.inl rfl⟩
    | str s => exact ⟨rfl, Or.inl rfl⟩
    | num n => exact ⟨rfl, Or.inl rfl⟩
    | bool b => exact ⟨rfl, Or.inl rfl⟩
    | arr xs => exact absurd h (by simp [isViolationInput])
    | obj kvs =>
      have hd := dispatch_method_violation st kvs h
      simp only [KernelControl.line_received, hd]
      refine ⟨?_, Or.inr ?_⟩ <;> trivial

/-- Witness for `C2_violation_closes_without_response`: the violating
line `{}` on a concrete state. -/
theorem C2_violation_closes_without_response_witness :
    (KernelControl.line_received ⟨"s", [], [], [], false⟩ (some (J.obj []))).2.1
        = ⟨"s", [], [], [], false⟩
      ∧ ((KernelControl.line_received ⟨"s", [], [], [], false⟩ (some (J.obj []))).2.2
            = [KEvent.ctlClose]
        ∨ (KernelControl.line_received ⟨"s", [], [], [], false⟩ (some (J.obj []))).2.2
            = [KEvent.ctlClose, KEvent.ctlWrite J.null]) :=
  C2_violation_closes_without_response ⟨"s", [], [], [], false⟩ (some (J.obj []))
    (Or.inl rfl)

theorem pySetUnion_toFinset (a b : List String) :
    (pySetUnion a b).toFinset = a.toFinset ∪ b.toFinset := by
  ext x
  simp [pySetUnion, List.mem_dedup]

theorem pySetDiff_toFinset (a b : List String) :
    (pySetDiff a b).toFinset = a.toFinset \ b.toFinset := by
  ext x
  simp [pySetDiff, List.mem_dedup, List.mem_filter]

/-- Claim C4 counterexample: the message `"JOIN "` case-insensitively
starts with `join `, yet on a registered network the handler neither
updates the channel set nor sends the message — `message.split()[1]`
raises `IndexError` first (state unchanged, no events at all). -/
theorem C4_counterexample :
    KernelControl.network_send
        ⟨"s", [(J.str "n", ⟨J.str "h", J.null, J.num 6667, J.null, J.null, ["#a"]⟩)],
         [(J.str "n", ⟨J.str "h", J.null, J.num 6667, J.null, J.null, ["#a"]⟩)],
         [(J.str "n", ⟨[], false⟩)], false⟩
        [("params", J.obj [("name", J.str "n"), ("message", J.str "JOIN ")])]
      = (.err .indexError,
         ⟨"s", [(J.str "n", ⟨J.str "h", J.null, J.num 6667, J.null, J.null, ["#a"]⟩)],
          [(J.str "n", ⟨J.str "h", J.null, J.num 6667, J.null, J.null, ["#a"]⟩)],
          [(J.str "n", ⟨[], false⟩)], false⟩, []) := by
  rfl

/-- Claim C4 (amended): for every `network.send` on a registered network
whose message case-insensitively starts with `join ` or `part ` AND has at
least two whitespace-delimited tokens (with a single token the unguarded
`split()[1]` raises instead, see `C4_counterexample`), the persisted
channel set is updated — set union for join, set difference for part, over
the comma-split second token — strictly before the message is sent, and
the message is then sent to the network verbatim. -/
theorem C4_join_part_update_before_send (st : KCState) (msg pl : JObj)
    (cl : Client) (net : Net) (m : String) (t0 t1 : List Char) (ts : List (List Char))
    (hp : objGet msg "params" = J.obj pl)
    (hcl : jLookup st.clients (objGet pl "name") = some cl)
    (hnet : jLookup st.networks (objGet pl "name") = some net)
    (hmsg : objGet pl "message" = J.str m)
    (htok : pySplit m.toList = t0 :: t1 :: ts) :
    (startsWithL (pyLower m.toList) "join ".toList = true →
      KernelControl.network_send st msg
        = (.resp (some (successEnv msg)),
           { st with
              networks := jSet st.networks (objGet pl "name")
                { net with channels := pySetUnion net.channels ((splitComma t1).map (fun l => String.mk l)) },
              persisted := jSet st.networks (objGet pl "name")
                { net with channels := pySetUnion net.channels ((splitComma t1).map (fun l => String.mk l)) },
              clients := st.clients.map (fun p =>
                if scalarEq p.1 (objGet pl "name") then
                  (p.1, { p.2 with sent := p.2.sent ++ [m] }) else p) },
           [KEvent.persistNetworks (jSet st.networks (objGet pl "name")
              { net with channels := pySetUnion net.channels ((splitComma t1).map (fun l => String.mk l)) }),
            KEvent.clientSend (objGet pl "name") m])
      ∧ (pySetUnion net.channels ((splitComma t1).map (fun l => String.mk l))).toFinset
          = net.channels.toFinset ∪ ((splitComma t1).map (fun l => String.mk l)).toFinset
      ∧ allBefore isPersistE isClientSendE (KernelControl.network_send st msg).2.2 = true)
    ∧ (startsWithL (pyLower m.toList) "join ".toList = false →
       startsWithL (pyLower m.toList) "nick ".toList = false →
       startsWithL (pyLower m.toList) "part ".toList = true →
      KernelControl.network_send st msg
        = (.resp (some (successEnv msg)),
           { st with
              networks := jSet st.networks (objGet pl "name")
                { net with channels := pySetDiff net.channels ((splitComma t1).map (fun l => String.mk l)) },
              persisted := jSet st.networks (objGet pl "name")
                { net with channels := pySetDiff net.channels ((splitComma t1).map (fun l => String.mk l)) },
              clients := st.clients.map (fun p =>
                if scalarEq p.1 (objGet pl "name") then
                  (p.1, { p.2 with sent := p.2.sent ++ [m] }) else p) },
           [KEvent.persistNetworks (jSet st.networks (objGet pl "name")
              { net with channels := pySetDiff net.channels ((splitComma t1).map (fun l => String.mk l)) }),
            KEvent.clientSend (objGet pl "name") m])
      ∧ (pySetDiff net.channels ((splitComma t1).map (fun l => String.mk l))).toFinset
          = net.channels.toFinset \ ((splitComma t1).map (fun l => String.mk l)).toFinset
      ∧ allBefore isPersistE isClientSendE (KernelControl.network_send st msg).2.2 = true) := by
  have hne : m ≠ "" := by
    intro he
    rw [he] at htok
    simp [pySplit, pySplitGo] at htok
  have hmne : (m == "") = false := by
    simp [hne]
  have htok' : pySplit m.data = t0 :: t1 :: ts := htok
  constructor
  · intro hj
    have hj2 : startsWithL (pyLower m.data) ['j', 'o', 'i', 'n', ' '] = true := hj
    refine ⟨?_, pySetUnion_toFinset _ _, ?_⟩
    · unfold KernelControl.network_send
      simp [hp, hcl, hmsg, hj2, htok', hnet, KernelControl.clientOut, hmne]
    · unfold KernelControl.network_send
      simp [hp, hcl, hmsg, hj2, htok', hnet, KernelControl.clientOut, hmne, allBefore,
        isPersistE, isClientSendE]
  · intro hj hn hpt
    have hj2 : startsWithL (pyLower m.data) ['j', 'o', 'i', 'n', ' '] = false := hj
    have hn2 : startsWithL (pyLower m.data) ['n', 'i', 'c', 'k', ' '] = false := hn
    have hpt2 : startsWithL (pyLower m.data) ['p', 'a', 'r', 't', ' '] = true := hpt
    refine ⟨?_, pySetDiff_toFinset _ _, ?_⟩
    · unfold KernelControl.network_send
      simp [hp, hcl, hmsg, hj2, hn2, hpt2, htok', hnet, KernelControl.clientOut, hmne]
    · unfold KernelControl.network_send
      simp [hp, hcl, hmsg, hj2, hn2, hpt2, htok', hnet, KernelControl.clientOut, hmne, allBefore,
        isPersistE, isClientSendE]

/-- Witness for `C4_join_part_update_before_send`: the two instances from
the claim.  `JOIN #a,#b` on persisted channel set `{"#a"}` yields
`{"#a","#b"}` with the persist event before the verbatim send;
`PART #a` on `{"#a","#b"}` yields `{"#b"}`. -/
theorem C4_join_part_update_before_send_witness :
    ((KernelControl.network_send
        ⟨"s", [(J.str "n", ⟨J.str "h", J.null, J.num 6667, J.null, J.null, ["#a"]⟩)],
         [(J.str "n", ⟨J.str "h", J.null, J.num 6667, J.null, J.null, ["#a"]⟩)],
         [(J.str "n", ⟨[], false⟩)], false⟩
        [("params", J.obj [("name", J.str "n"), ("message", J.str "JOIN #a,#b")])]).2.1.persisted
      = [(J.str "n", ⟨J.str "h", J.null, J.num 6667, J.null, J.null, ["#a", "#b"]⟩)]
    ∧ (KernelControl.network_send
        ⟨"s", [(J.str "n", ⟨J.str "h", J.null, J.num 6667, J.null, J.null, ["#a"]⟩)],
         [(J.str "n", ⟨J.str "h", J.null, J.num 6667, J.null, J.null, ["#a"]⟩)],
         [(J.str "n", ⟨[], false⟩)], false⟩
        [("params", J.obj [("name", J.str "n"), ("message", J.str "JOIN #a,#b")])]).2.2
      = [KEvent.persistNetworks
           [(J.str "n", ⟨J.str "h", J.null, J.num 6667, J.null, J.null, ["#a", "#b"]⟩)],
         KEvent.clientSend (J.str "n") "JOIN #a,#b"])
    ∧ (KernelControl.network_send
        ⟨"s", [(J.str "n", ⟨J.str "h", J.null, J.num 6667, J.null, J.null, ["#a", "#b"]⟩)],
         [(J.str "n", ⟨J.str "h", J.null, J.num 6667, J.null, J.null, ["#a", "#b"]⟩)],
         [(J.str "n", ⟨[], false⟩)], false⟩
        [("params", J.obj [("name", J.str "n"), ("message", J.str "PART #a")])]).2.1.persisted
      = [(J.str "n", ⟨J.str "h", J.null, J.num 6667, J.null, J.null, ["#b"]⟩)] := by
  have hJ := (C4_join_part_update_before_send
    ⟨"s", [(J.str "n", ⟨J.str "h", J.null, J.num 6667, J.null, J.null, ["#a"]⟩)],
     [(J.str "n", ⟨J.str "h", J.null, J.num 6667, J.null, J.null, ["#a"]⟩)],
     [(J.str "n", ⟨[], false⟩)], false⟩
    [("params", J.obj [("name", J.str "n"), ("message", J.str "JOIN #a,#b")])]
    [("name", J.str "n"), ("message", J.str "JOIN #a,#b")]
    ⟨[], false⟩ ⟨J.str "h", J.null, J.num 6667, J.null, J.null, ["#a"]⟩
    "JOIN #a,#b" "JOIN".toList "#a,#b".toList []
    rfl rfl rfl rfl rfl).1 (by decide)
  have hP := (C4_join_part_update_before_send
    ⟨"s", [(J.str "n", ⟨J.str "h", J.null, J.num 6667, J.null, J.null, ["#a", "#b"]⟩)],
     [(J.str "n", ⟨J.str "h", J.null, J.num 6667, J.null, J.null, ["#a", "#b"]⟩)],
     [(J.str "n", ⟨[], false⟩)], false⟩
    [("params", J.obj [("name", J.str "n"), ("message", J.str "PART #a")])]
    [("name", J.str "n"), ("message", J.str "PART #a")]
    ⟨[], false⟩ ⟨J.str "h", J.null, J.num 6667, J.null, J.null, ["#a", "#b"]⟩
    "PART #a" "PART".toList "#a".toList []
    rfl rfl rfl rfl rfl).2 (by decide) (by decide) (by decide)
  refine ⟨⟨?_, ?_⟩, ?_⟩
  · rw [hJ.1]
    rfl
  · rw [hJ.1]
    rfl
  · rw [hP.1]
    rfl

/-! ## Registry/persistence consistency (claim C3) -/

theorem boolIntEq (p q : Bool) :
    ((if p then (1 : Int) else 0) = if q then (1 : Int) else 0) ↔ p = q := by
  cases p <;> cases q <;> simp

theorem scalarEq_symm (a b : J) : scalarEq a b = scalarEq b a := by
  cases a <;> cases b <;> simp [scalarEq, beq_iff_eq, eq_comm]

theorem scalarEq_trans (a b c : J) (h1 : scalarEq a b = true)
    (h2 : scalarEq b c = true) : scalarEq a c = true := by
  cases a <;> cases b <;> cases c <;>
    simp_all [scalarEq, beq_iff_eq, boolIntEq]

theorem jLookup_mapFst {α β : Type} (l : List (J × α)) (f : J × α → β) (k : J) :
    (jLookup (l.map (fun p => (p.1, f p))) k).isSome = (jLookup l k).isSome := by
  induction l with
  | nil => rfl
  | cons p t ih =>
    cases h : scalarEq p.1 k
    · have := ih
      simp only [jLookup, List.map_cons, List.find?_cons, h] at this ⊢
      exact this
    · simp only [jLookup, List.map_cons, List.find?_cons, h]
      rfl

theorem jLookup_append_single {α : Type} (l : List (J × α)) (k : J) (v : α) (k2 : J) :
    (jLookup (l ++ [(k, v)]) k2).isSome = ((jLookup l k2).isSome || scalarEq k k2) := by
  induction l with
  | nil =>
    cases h : scalarEq k k2 <;> simp [jLookup, List.find?_cons, h]
  | cons p t ih =>
    cases h : scalarEq p.1 k2
    · have := ih
      simp only [jLookup, List.cons_append, List.find?_cons, h] at this ⊢
      exact this
    · simp only [jLookup, List.cons_append, List.find?_cons, h]
      rfl

theorem jLookup_isSome_eq_any {α : Type} (l : List (J × α)) (k : J) :
    (jLookup l k).isSome = l.any (fun p => scalarEq p.1 k) := by
  induction l with
  | nil => rfl
  | cons p t ih =>
    cases h : scalarEq p.1 k
    · have := ih
      simp only [jLookup, List.find?_cons, h, List.any_cons] at this ⊢
      simpa [h] using this
    · simp [jLookup, List.find?_cons, h]

theorem jLookup_jDel_isSome {α : Type} (l : List (J × α)) (k k2 : J) :
    (jLookup (jDel l k) k2).isSome
      = if scalarEq k2 k then false else (jLookup l k2).isSome := by
  induction l with
  | nil =>
    cases h : scalarEq k2 k <;> simp [jDel, jLookup, h]
  | cons p t ih =>
    cases h2 : scalarEq p.1 k
    · cases h3 : scalarEq p.1 k2
      · have := ih
        simp only [jDel, List.filter_cons, h2, Bool.not_false, if_true] at this ⊢
        simp only [jLookup, List.find?_cons, h3] at this ⊢
        exact this
      · have hk2k : scalarEq k2 k = false := by
          cases hq : scalarEq k2 k
          · rfl
          · exfalso
            have hs : scalarEq p.1 k = true :=
              scalarEq_trans p.1 k2 k h3 hq
            rw [hs] at h2
            exact Bool.noConfusion h2
        simp only [jDel, List.filter_cons, h2, Bool.not_false, if_true, hk2k, if_false]
        simp [jLookup, List.find?_cons, h3]
    · cases h3 : scalarEq p.1 k2
      · have := ih
        simp only [jDel, List.filter_cons, h2, Bool.not_true, Bool.false_eq_true,
          if_false] at this ⊢
        simp only [jLookup, List.find?_cons, h3] at this ⊢
        exact this
      · have hk2k : scalarEq k2 k = true := by
          have hs : scalarEq k2 p.1 = true := by rw [scalarEq_symm]; exact h3
          exact scalarEq_trans k2 p.1 k hs h2
        have := ih
        simp only [jDel, List.filter_cons, h2, Bool.not_true, Bool.false_eq_true,
          if_false] at this ⊢
        rw [hk2k] at this ⊢
        simpa using this

theorem keysEquiv_jSet {α β : Type} (a : List (J × α)) (b : List (J × β))
    (h : keysEquiv a b) (k : J) (v : α) (w : β) :
    keysEquiv (jSet a k v) (jSet b k w) := by
  intro k2
  have hany : a.any (fun p => scalarEq p.1 k) = b.any (fun p => scalarEq p.1 k) := by
    rw [← jLookup_isSome_eq_any, ← jLookup_isSome_eq_any, h k]
  unfold jSet
  cases hA : a.any (fun p => scalarEq p.1 k)
  · have hB : b.any (fun p => scalarEq p.1 k) = false := by rw [← hany]; exact hA
    simp only [hA, hB, Bool.false_eq_true, if_false]
    rw [jLookup_append_single, jLookup_append_single, h k2]
  · have hB : b.any (fun p => scalarEq p.1 k) = true := by rw [← hany]; exact hA
    simp only [hA, hB, if_true]
    rw [jLookup_mapFst, jLookup_mapFst, h k2]

theorem keysEquiv_jDel {α β : Type} (a : List (J × α)) (b : List (J × β))
    (h : keysEquiv a b) (k : J) :
    keysEquiv (jDel a k) (jDel b k) := by
  intro k2
  rw [jLookup_jDel_isSome, jLookup_jDel_isSome, h k2]

theorem network_add_cases (st : KCState) (msg : JObj) :
    (KernelControl.network_add st msg).2.1 = st
    ∨ ∃ (name : J) (v : Net) (c : Client),
        (KernelControl.network_add st msg).2.1
          = { st with networks := jSet st.networks name v,
                      persisted := jSet st.networks name v,
                      clients := jSet st.clients name c } := by
  cases hpar : objGet msg "params"
  case obj params =>
    cases hnull : (objGet params "host").isNull
    · right
      refine ⟨objGet params "name", ?_, ?_, ?_⟩
      · exact { host := objGet params "host", nick := objGet params "nick",
                port := objGetD params "port" (J.num 6667),
                realname := objGet params "realname", user := objGet params "user",
                channels := [] }
      · exact ⟨[], st.subscribed⟩
      · unfold KernelControl.network_add
        simp only [hpar, hnull, Bool.false_eq_true, if_false]
    · left
      unfold KernelControl.network_add
      simp only [hpar, hnull, if_true]
  all_goals left
  all_goals unfold KernelControl.network_add
  all_goals simp only [hpar]

theorem network_delete_cases (st : KCState) (msg : JObj) :
    (KernelControl.network_delete st msg).2.1 = st
    ∨ ∃ name : J, (jLookup st.clients name).isSome = true
        ∧ ((jLookup st.networks name).isSome = true
              ∧ (KernelControl.network_delete st msg).2.1
                = { st with clients := jDel st.clients name,
                            networks := jDel st.networks name,
                            persisted := jDel st.networks name }
          ∨ (jLookup st.networks name).isSome = false
              ∧ (KernelControl.network_delete st msg).2.1
                = { st with clients := jDel st.clients name }) := by
  cases hpar : objGet msg "params"
  case obj params =>
    cases hcl : jLookup st.clients (objGet params "name")
    case none =>
      left
      unfold KernelControl.network_delete
      simp only [hpar, hcl]
    case some c =>
      right
      refine ⟨objGet params "name", by rw [hcl]; rfl, ?_⟩
      cases hnet : (jLookup st.networks (objGet params "name")).isSome
      · right
        refine ⟨rfl, ?_⟩
        unfold KernelControl.network_delete
        simp only [hpar, hcl, hnet, Bool.false_eq_true, if_false]
      · left
        refine ⟨rfl, ?_⟩
        unfold KernelControl.network_delete
        simp only [hpar, hcl, hnet, if_true]
  all_goals left
  all_goals unfold KernelControl.network_delete
  all_goals simp only [hpar]

theorem reach_inv (st : KCState) (h : Reach st) : RegistryConfigInv st := by
  induction h with
  | startup secret cfg =>
    refine ⟨rfl, ?_⟩
    intro k
    exact jLookup_mapFst cfg _ k
  | add st msg hr ih =>
    rcases ih with ⟨hnp, hke⟩
    rcases network_add_cases st msg with heq | ⟨name, v, c, heq⟩
    · rw [heq]
      exact ⟨hnp, hke⟩
    · rw [heq]
      refine ⟨rfl, ?_⟩
      have hke2 : keysEquiv st.clients st.networks := by rw [hnp]; exact hke
      exact keysEquiv_jSet st.clients st.networks hke2 name c v
  | del st msg hr ih =>
    rcases ih with ⟨hnp, hke⟩
    rcases network_delete_cases st msg with heq | ⟨name, hcl, ⟨hnet, heq⟩ | ⟨hnet, heq⟩⟩
    · rw [heq]
      exact ⟨hnp, hke⟩
    · rw [heq]
      refine ⟨rfl, ?_⟩
      have hke2 : keysEquiv st.clients st.networks := by rw [hnp]; exact hke
      exact keysEquiv_jDel st.clients st.networks hke2 name
    · exfalso
      have h1 : (jLookup st.persisted name).isSome = true := by
        rw [← hke name]; exact hcl
      rw [← hnp] at h1
      rw [h1] at hnet
      exact Bool.noConfusion hnet

theorem network_add_events_order (st : KCState) (msg : JObj) :
    allBefore isPersistE isRegAddE (KernelControl.network_add st msg).2.2 = true := by
  cases hpar : objGet msg "params"
  case obj params =>
    cases hnull : (objGet params "host").isNull
    · unfold KernelControl.network_add
      simp only [hpar, hnull, Bool.false_eq_true, if_false]
      rfl
    · unfold KernelControl.network_add
      simp only [hpar, hnull, if_true]
      rfl
  all_goals unfold KernelControl.network_add
  all_goals simp only [hpar]
  all_goals rfl

theorem network_delete_events_order (st : KCState) (msg : JObj) :
    allBefore isRegDelE isPersistE (KernelControl.network_delete st msg).2.2 = true := by
  cases hpar : objGet msg "params"
  case obj params =>
    cases hcl : jLookup st.clients (objGet params "name")
    case none =>
      unfold KernelControl.network_delete
      simp only [hpar, hcl]
      rfl
    case some c =>
      cases hnet : (jLookup st.networks (objGet params "name")).isSome
      · unfold KernelControl.network_delete
        simp only [hpar, hcl, hnet, Bool.false_eq_true, if_false]
        rfl
      · unfold KernelControl.network_delete
        simp only [hpar, hcl, hnet, if_true]
        rfl
  all_goals unfold KernelControl.network_delete
  all_goals simp only [hpar]
  all_goals rfl

/-- Claim C3: in every state reachable by startup, `network.add` and
`network.delete`, the in-memory client registry has exactly the same
names as the persisted `networks` mapping (and the in-memory `networks`
value equals the persisted one); transiently within one operation, on add
every persistence flush precedes the registry insertion, and on delete
the registry removal precedes every persistence flush. -/
theorem C3_registry_config_bijection :
    (∀ st : KCState, Reach st →
        st.networks = st.persisted
        ∧ ∀ k : J, (jLookup st.clients k).isSome = (jLookup st.persisted k).isSome)
    ∧ (∀ (st : KCState) (msg : JObj),
        allBefore isPersistE isRegAddE (KernelControl.network_add st msg).2.2 = true)
    ∧ (∀ (st : KCState) (msg : JObj),
        allBefore isRegDelE isPersistE (KernelControl.network_delete st msg).2.2 = true) := by
  refine ⟨?_, network_add_events_order, network_delete_events_order⟩
  intro st h
  exact reach_inv st h

/-- Witness for `C3_registry_config_bijection`: a concrete startup state
with one configured network, and the two event orderings at concrete
inputs. -/
theorem C3_registry_config_bijection_witness :
    ((KernelControl.startupState "s"
        [(J.str "n", ⟨J.str "h", J.null, J.num 6667, J.null, J.null, []⟩)]).networks
      = (KernelControl.startupState "s"
        [(J.str "n", ⟨J.str "h", J.null, J.num 6667, J.null, J.null, []⟩)]).persisted
      ∧ ∀ k : J, (jLookup (KernelControl.startupState "s"
          [(J.str "n", ⟨J.str "h", J.null, J.num 6667, J.null, J.null, []⟩)]).clients k).isSome
        = (jLookup (KernelControl.startupState "s"
          [(J.str "n", ⟨J.str "h", J.null, J.num 6667, J.null, J.null, []⟩)]).persisted k).isSome)
    ∧ allBefore isPersistE isRegAddE
        (KernelControl.network_add ⟨"s", [], [], [], false⟩
          [("params", J.obj [("name", J.str "n"), ("host", J.str "h")])]).2.2 = true
    ∧ allBefore isRegDelE isPersistE
        (KernelControl.network_delete
          ⟨"s", [(J.str "n", ⟨J.str "h", J.null, J.num 6667, J.null, J.null, []⟩)],
           [(J.str "n", ⟨J.str "h", J.null, J.num 6667, J.null, J.null, []⟩)],
           [(J.str "n", ⟨[], false⟩)], false⟩
          [("params", J.obj [("name", J.str "n")])]).2.2 = true :=
  ⟨C3_registry_config_bijection.1 _ (Reach.startup "s"
      [(J.str "n", ⟨J.str "h", J.null, J.num 6667, J.null, J.null, []⟩)]),
   C3_registry_config_bijection.2.1 ⟨"s", [], [], [], false⟩
      [("params", J.obj [("name", J.str "n"), ("host", J.str "h")])],
   C3_registry_config_bijection.2.2
      ⟨"s", [(J.str "n", ⟨J.str "h", J.null, J.num 6667, J.null, J.null, []⟩)],
       [(J.str "n", ⟨J.str "h", J.null, J.num 6667, J.null, J.null, []⟩)],
       [(J.str "n", ⟨[], false⟩)], false⟩
      [("params", J.obj [("name", J.str "n")])]⟩

end IrcKernel
